import Mathlib

/-!
# Verification of the `vicinity` usearch backend adapter

Shallow embedding of `src/vicinity/backends/usearch.py` (the `UsearchArgs`
dataclass and the `UsearchBackend` adapter) together with models of its
collaborators:

* the underlying `usearch.index.Index` engine is an external collaborator
  ("opaque engine capability" in the spec); it is modelled here as an exact
  k-nearest-neighbour engine over rational vectors whose batched search
  returns dense `(Q, k)` key/distance matrices in which, for a query that
  matches fewer than `k` stored vectors, the trailing entries are padding
  (modelled as key `0`, distance `0`; in the engine they are unspecified
  buffer contents, and a per-query `counts` field reports how many leading
  entries are valid);
* the argument-record base class (`vicinity/backends/base.py`, not part of
  the sources at hand) is modelled from the spec's argument-record contract;
* the file system is a map from `(directory, file name)` paths to file data.

Machine floats of the source (`np.float32` distances) are modelled as `ℚ`;
distance formulas for the metrics are concrete rational stand-ins for the
engine's opaque distance computation (`cos` and `tanimoto` avoid square
roots), which no theorem below depends on.
-/

namespace Vicinity

/-- The closed metric set of the source:
`Literal["cos", "ip", "l2sq", "hamming", "tanimoto"]`. -/
inductive Metric where
  | cos
  | ip
  | l2sq
  | hamming
  | tanimoto
deriving DecidableEq, Repr

/-- A vector: one row of a numeric batch, components modelled as `ℚ`. -/
abbrev Vec := List ℚ

/-- A vector batch: a 2D numeric array, rows = items. -/
abbrev VecBatch := List Vec

/-- `vectors.shape[1]`: the column count of a batch (row length of the first
row; the claims only use it on non-empty batches). -/
def ncols (vectors : VecBatch) : Nat := (vectors.headD []).length

/-- Inner product of two rows (componentwise, truncating like `zip`). -/
def dot (a b : Vec) : ℚ := (List.zipWith (· * ·) a b).sum

/-- Squared norm of a row. -/
def normSq (a : Vec) : ℚ := dot a a

/-- Modelled from the spec: the engine's distance computation is an opaque
engine capability ("distance computation — supplied by each engine as an
opaque capability"). Concrete rational stand-ins per metric; `cos` and
`tanimoto` use square-root-free surrogates. No theorem depends on the
particular formulas, only on the engine sorting by them. -/
def rawDist : Metric → Vec → Vec → ℚ
  | .l2sq, a, b => ((List.zipWith (· - ·) a b).map (fun x => x * x)).sum
  | .ip, a, b => 1 - dot a b
  | .cos, a, b => 1 - dot a b / (normSq a * normSq b)
  | .hamming, a, b => (List.zipWith (fun x y => if x = y then (0 : ℚ) else 1) a b).sum
  | .tanimoto, a, b => 1 - dot a b / (normSq a + normSq b - dot a b)

/-- Comparison of `(key, distance)` pairs by distance, the order in which the
engine returns matches ("ordered by ascending distance (nearest first)"). -/
def distLe (p q : Nat × ℚ) : Prop := p.2 ≤ q.2

instance : DecidableRel distLe := fun p q => inferInstanceAs (Decidable (p.2 ≤ q.2))

instance : IsTotal (Nat × ℚ) distLe := ⟨fun p q => le_total p.2 q.2⟩

instance : IsTrans (Nat × ℚ) distLe := ⟨fun _ _ _ h h2 => le_trans h h2⟩

/-- Model of the external `usearch.index.Index` engine instance: its
construction parameters plus the stored vectors. A stored vector's key is its
position (`add` with `keys=None` assigns the next contiguous keys). -/
structure UsearchIndex where
  ndim : Nat
  metric : Metric
  connectivity : Nat
  expansion_add : Nat
  expansion_search : Nat
  vectors : List Vec
deriving DecidableEq, Repr

/-- `UsearchIndex(ndim=..., metric=..., connectivity=..., expansion_add=...,
expansion_search=...)`: a fresh (empty-state) engine instance. -/
def mkUsearchIndex (ndim : Nat) (metric : Metric) (connectivity : Nat)
    (expansion_add : Nat) (expansion_search : Nat) : UsearchIndex :=
  ⟨ndim, metric, connectivity, expansion_add, expansion_search, []⟩

/-- `index.add(keys=None, vectors=vectors)`: appends the rows, each getting
the next contiguous key. -/
def UsearchIndex.add (idx : UsearchIndex) (new : VecBatch) : UsearchIndex :=
  { idx with vectors := idx.vectors ++ new }

/-- `len(self.index)`: the number of stored vectors. -/
def UsearchIndex.size (idx : UsearchIndex) : Nat := idx.vectors.length

/-- One query's row of engine search output: the `min k n` nearest stored
`(key, distance)` pairs in ascending distance order, padded on the right to
exactly `k` entries (padding modelled as `(0, 0)`; in the engine those slots
are unspecified buffer contents beyond the reported per-query count). -/
def UsearchIndex.searchRow (idx : UsearchIndex) (q : Vec) (k : Nat) : List (Nat × ℚ) :=
  let pairs := (List.range idx.vectors.length).zip (idx.vectors.map (rawDist idx.metric q))
  let sorted := List.insertionSort distLe pairs
  let top := sorted.take k
  top ++ List.replicate (k - top.length) (0, 0)

/-- Model of `usearch` `BatchMatches`: dense `(Q, k)` key and distance
matrices plus the per-query count of valid leading entries. -/
structure BatchMatches where
  keys : List (List Nat)
  distances : List (List ℚ)
  counts : List Nat
deriving DecidableEq, Repr

/-- `self.index.search(vectors, k)`: batched k-nearest search. Each output
row is dense with `k` columns; `counts` reports how many leading entries of
each row are valid matches. -/
def UsearchIndex.search (idx : UsearchIndex) (vectors : VecBatch) (k : Nat) : BatchMatches :=
  let rows := vectors.map (fun q => idx.searchRow q k)
  ⟨rows.map (fun r => r.map Prod.fst),
   rows.map (fun r => r.map Prod.snd),
   vectors.map (fun _ => min k idx.vectors.length)⟩

/-- Bounded-fuel worker for `chunks` (structural recursion on the fuel so
that concrete evaluation reduces in the kernel). -/
def chunksAux {α : Type} (k : Nat) : Nat → List α → List (List α)
  | _, [] => []
  | 0, _ :: _ => []
  | fuel + 1, a :: l => ((a :: l).take k) :: chunksAux k fuel ((a :: l).drop k)

/-- `np.array(...).reshape(-1, k)` on a row-major buffer: regroup the flat
element sequence into rows of `k` (the source is only applied to buffers
whose length is a multiple of `k`, where this is exact reshape semantics;
`k ≤ 0` is a usage error in the source and yields no rows here). -/
def chunks {α : Type} (k : Nat) (l : List α) : List (List α) :=
  if k = 0 then [] else chunksAux k l.length l

/-- The `UsearchArgs` dataclass of the source (field defaults included). -/
structure UsearchArgs where
  dim : Nat := 0
  metric : Metric := .cos
  connectivity : Nat := 16
  expansion_add : Nat := 128
  expansion_search : Nat := 64
deriving DecidableEq, Repr

/-- A persisted-directory path: `(directory, file name)`. -/
abbrev FPath := String × String

/-- Contents of one persisted file: either the engine-native index file or
the structured argument file. -/
inductive FileData where
  | engine (state : UsearchIndex)
  | args (a : UsearchArgs)
deriving DecidableEq, Repr

/-- The file system: a map from paths to file contents. -/
abbrev FS := FPath → Option FileData

/-- Writing one file. -/
def fsWrite (fs : FS) (p : FPath) (d : FileData) : FS :=
  fun q => if q = p then some d else fs q

/-- Modelled from the spec: `BaseArgs.load` of `vicinity/backends/base.py`
(not among the sources at hand): "`load(path) -> Record` reconstructs a
record from a persisted structured file, failing with a deserialization
error if fields are missing or malformed". -/
def UsearchArgs.loadFile (p : FPath) (fs : FS) : Except String UsearchArgs :=
  match fs p with
  | some (.args a) => .ok a
  | _ => .error "deserialization error"

/-- Modelled from the spec: `BaseArgs.dump` ("`dump(record, path)` writes it
out losslessly"). -/
def UsearchArgs.dump (a : UsearchArgs) (p : FPath) (fs : FS) : FS :=
  fsWrite fs p (.args a)

/-- Model of the engine's native `index.save(path)`: persists the full
engine state into one file. -/
def UsearchIndex.saveTo (idx : UsearchIndex) (p : FPath) (fs : FS) : FS :=
  fsWrite fs p (.engine idx)

/-- Model of the engine's native `index.load(path)`: restores the full
persisted engine state from the file, replacing the state of the freshly
constructed instance it is called on ("persist/restore full engine state"). -/
def UsearchIndex.loadFrom (_idx : UsearchIndex) (p : FPath) (fs : FS) :
    Except String UsearchIndex :=
  match fs p with
  | some (.engine st) => .ok st
  | _ => .error "engine index file missing or malformed"

/-- The `UsearchBackend` adapter: one engine instance plus its argument
record (`AbstractBackend.__init__` stores `arguments`; `UsearchBackend.__init__`
stores `index`). -/
structure UsearchBackend where
  index : UsearchIndex
  arguments : UsearchArgs
deriving DecidableEq, Repr

/-- `UsearchBackend.from_vectors`: derives `dim` from the batch's column
count, builds a fresh engine with the passed parameters, adds the vectors
with auto-assigned keys, and captures the configuration into the argument
record. `kwargs` models the `**kwargs: Any` catch-all of the signature; the
body never reads it. -/
def UsearchBackend.from_vectors (vectors : VecBatch) (metric : Metric)
    (connectivity : Nat) (expansion_add : Nat) (expansion_search : Nat)
    (kwargs : List (String × String)) : UsearchBackend :=
  let dim := ncols vectors
  let index := mkUsearchIndex dim metric connectivity expansion_add expansion_search
  let index := index.add vectors
  let arguments : UsearchArgs := ⟨dim, metric, connectivity, expansion_add, expansion_search⟩
  ⟨index, arguments⟩

/-- The `dim` property: `self.index.ndim`. -/
def UsearchBackend.dim (b : UsearchBackend) : Nat := b.index.ndim

/-- `__len__`: `len(self.index)`. -/
def UsearchBackend.len (b : UsearchBackend) : Nat := b.index.size

/-- `UsearchBackend.load(base_path)`: read the argument record from
`arguments.json`, build a fresh engine instance from its fields, then load
the engine-native file `index.usearch` into it. -/
def UsearchBackend.load (base_path : String) (fs : FS) : Except String UsearchBackend :=
  match UsearchArgs.loadFile (base_path, "arguments.json") fs with
  | .error e => .error e
  | .ok arguments =>
    match (mkUsearchIndex arguments.dim arguments.metric arguments.connectivity
        arguments.expansion_add arguments.expansion_search).loadFrom
        (base_path, "index.usearch") fs with
    | .error e => .error e
    | .ok index => .ok ⟨index, arguments⟩

/-- `UsearchBackend.save(base_path)`: write the engine-native file then dump
the argument record; the adapter itself is untouched (first component of the
result is the adapter as the method leaves it). -/
def UsearchBackend.save (b : UsearchBackend) (base_path : String) (fs : FS) :
    UsearchBackend × FS :=
  let fs1 := b.index.saveTo (base_path, "index.usearch") fs
  let fs2 := UsearchArgs.dump b.arguments (base_path, "arguments.json") fs1
  (b, fs2)

/-- `UsearchBackend.query`: engine search, then `np.array(results.keys)
.reshape(-1, k)` and likewise for distances, then `list(zip(keys, distances))`.
Each returned entry is one query's `(keys row, distances row)`. -/
def UsearchBackend.query (b : UsearchBackend) (vectors : VecBatch) (k : Nat) :
    List (List Nat × List ℚ) :=
  let results := b.index.search vectors k
  let keys := chunks k results.keys.flatten
  let distances := chunks k results.distances.flatten
  keys.zip distances

/-- `UsearchBackend.insert`: `self.index.add(None, vectors)` (state-passing
for the in-place mutation). -/
def UsearchBackend.insert (b : UsearchBackend) (vectors : VecBatch) : UsearchBackend :=
  ⟨b.index.add vectors, b.arguments⟩

/-- `UsearchBackend.delete`: `raise NotImplementedError(...)` before touching
anything; the pair is (adapter as the method leaves it, raised error). -/
def UsearchBackend.delete (b : UsearchBackend) (_indices : List Nat) :
    UsearchBackend × Option String :=
  (b, some "Dynamic deletion is not supported by usearch.")

/-- `UsearchBackend.threshold`: for each `(keys_row, distances_row)` of
`self.query(vectors, 100)`, the boolean-mask selection
`keys_row[distances_row < threshold]`. -/
def UsearchBackend.threshold (b : UsearchBackend) (vectors : VecBatch) (t : ℚ) :
    List (List Nat) :=
  (b.query vectors 100).map (fun row =>
    (row.1.zip row.2).filterMap (fun p => if p.2 < t then some p.1 else none))

/-! ## Helper lemmas -/

lemma length_searchRow (idx : UsearchIndex) (q : Vec) (k : Nat) :
    (idx.searchRow q k).length = k := by
  simp only [UsearchIndex.searchRow, List.length_append, List.length_replicate,
    List.length_take, List.length_insertionSort, List.length_zip, List.length_range,
    List.length_map]
  omega

lemma searchRow_eq_of_le (idx : UsearchIndex) (q : Vec) (k : Nat) (hk : k ≤ idx.size) :
    idx.searchRow q k =
      (List.insertionSort distLe
        ((List.range idx.vectors.length).zip (idx.vectors.map (rawDist idx.metric q)))).take k := by
  have hlen : (List.take k (List.insertionSort distLe
      ((List.range idx.vectors.length).zip (idx.vectors.map (rawDist idx.metric q))))).length = k := by
    simp only [List.length_take, List.length_insertionSort, List.length_zip,
      List.length_range, List.length_map]
    simp only [UsearchIndex.size] at hk
    omega
  simp only [UsearchIndex.searchRow, hlen, Nat.sub_self, List.replicate_zero, List.append_nil]

lemma pairwise_searchRow (idx : UsearchIndex) (q : Vec) (k : Nat) (hk : k ≤ idx.size) :
    List.Pairwise (· ≤ ·) ((idx.searchRow q k).map Prod.snd) := by
  rw [searchRow_eq_of_le idx q k hk, List.pairwise_map]
  exact List.Pairwise.sublist (List.take_sublist _ _) (List.sorted_insertionSort distLe _)

lemma chunksAux_nil {α : Type} (k fuel : Nat) : chunksAux k fuel ([] : List α) = [] := by
  cases fuel <;> rfl

lemma chunksAux_flatten {α : Type} (k : Nat) (hk : 0 < k) (rows : List (List α)) :
    ∀ fuel : Nat, (∀ r ∈ rows, r.length = k) → rows.flatten.length ≤ fuel →
      chunksAux k fuel rows.flatten = rows := by
  induction rows with
  | nil => intro fuel _ _; simpa using chunksAux_nil k fuel
  | cons r rows ih =>
    intro fuel hr hf
    have hrk : r.length = k := hr r (by simp)
    obtain ⟨a, r2, rfl⟩ : ∃ a r2, r = a :: r2 := by
      cases r with
      | nil => simp at hrk; omega
      | cons a r2 => exact ⟨a, r2, rfl⟩
    cases fuel with
    | zero =>
      exfalso
      have h0 : 0 < ((a :: r2) :: rows).flatten.length := by simp
      omega
    | succ f =>
      have hstep : chunksAux k (f + 1) ((a :: r2) :: rows).flatten =
          ((a :: (r2 ++ rows.flatten)).take k) ::
            chunksAux k f ((a :: (r2 ++ rows.flatten)).drop k) := by
        simp only [List.flatten_cons, List.cons_append]
        rfl
      rw [hstep]
      have hassoc : a :: (r2 ++ rows.flatten) = (a :: r2) ++ rows.flatten := rfl
      rw [hassoc, List.take_left' hrk, List.drop_left' hrk]
      congr 1
      refine ih f (fun s hs => hr s (by simp [hs])) ?_
      simp only [List.flatten_cons, List.length_append, List.length_cons] at hf
      omega

lemma chunks_flatten {α : Type} (k : Nat) (hk : 0 < k) (rows : List (List α))
    (hr : ∀ r ∈ rows, r.length = k) : chunks k rows.flatten = rows := by
  unfold chunks
  rw [if_neg (by omega)]
  exact chunksAux_flatten k hk rows _ hr le_rfl

lemma query_eq (b : UsearchBackend) (V : VecBatch) (k : Nat) (hk : 0 < k) :
    b.query V k = V.map (fun q =>
      ((b.index.searchRow q k).map Prod.fst, (b.index.searchRow q k).map Prod.snd)) := by
  have hkeys : chunks k
      (((V.map (fun q => b.index.searchRow q k)).map (fun r => r.map Prod.fst)).flatten) =
      (V.map (fun q => b.index.searchRow q k)).map (fun r => r.map Prod.fst) := by
    refine chunks_flatten k hk _ ?_
    intro r hr
    simp only [List.mem_map] at hr
    obtain ⟨r0, hr0, rfl⟩ := hr
    obtain ⟨q, _, rfl⟩ := hr0
    simp [length_searchRow]
  have hdist : chunks k
      (((V.map (fun q => b.index.searchRow q k)).map (fun r => r.map Prod.snd)).flatten) =
      (V.map (fun q => b.index.searchRow q k)).map (fun r => r.map Prod.snd) := by
    refine chunks_flatten k hk _ ?_
    intro r hr
    simp only [List.mem_map] at hr
    obtain ⟨r0, hr0, rfl⟩ := hr
    obtain ⟨q, _, rfl⟩ := hr0
    simp [length_searchRow]
  simp only [UsearchBackend.query, UsearchIndex.search]
  rw [hkeys, hdist, List.zip_map', List.map_map]
  rfl

lemma query_row_lengths (b : UsearchBackend) (V : VecBatch) (k : Nat) (hk : 0 < k) :
    ∀ r ∈ b.query V k, r.1.length = k ∧ r.2.length = k := by
  rw [query_eq b V k hk]
  intro r hr
  simp only [List.mem_map] at hr
  obtain ⟨q, _, rfl⟩ := hr
  simp [length_searchRow]

lemma filterMap_lt_zip_sublist (t : ℚ) (ks : List Nat) :
    ∀ ds : List ℚ,
      ((ks.zip ds).filterMap (fun p => if p.2 < t then some p.1 else none)).Sublist ks := by
  induction ks with
  | nil => intro ds; simp
  | cons a ks ih =>
    intro ds
    cases ds with
    | nil => simp
    | cons d ds =>
      simp only [List.zip_cons_cons, List.filterMap_cons]
      by_cases h : d < t
      · simpa [h] using (ih ds).cons₂ a
      · simpa [h] using (ih ds).cons a

lemma query_length (b : UsearchBackend) (V : VecBatch) (k : Nat) (hk : 0 < k) :
    (b.query V k).length = V.length := by
  rw [query_eq b V k hk]
  simp

lemma threshold_length (b : UsearchBackend) (V : VecBatch) (t : ℚ) :
    (b.threshold V t).length = V.length := by
  simp [UsearchBackend.threshold, query_length b V 100 (by norm_num)]

/-! ## Concrete instances used by counterexamples and witnesses -/

/-- An adapter built from a single one-dimensional vector. -/
def oneVecBackend : UsearchBackend :=
  UsearchBackend.from_vectors [[(1 : ℚ)]] .l2sq 16 128 64 []

/-- An adapter built from three one-dimensional vectors. -/
def threeVecBackend : UsearchBackend :=
  UsearchBackend.from_vectors [[(0 : ℚ)], [(2 : ℚ)], [(5 : ℚ)]] .l2sq 16 128 64 []

/-! ## Claims -/

/-- C1: the claim says `query(v, k)` with `k` greater than the adapter's
vector count `n` returns exactly `n` pairs per query vector. On the code it
does not: `reshape(-1, k)` forces every returned row to hold exactly `k`
pairs, the tail beyond the engine's match count being padding. Evaluation at
the failing input: an adapter holding one vector, queried with `k = 2`,
returns a row of two pairs (the second the padding entry), not one. -/
theorem query_k_exceeds_size_returns_k_pairs :
    oneVecBackend.len = 1 ∧
    (oneVecBackend.query [[(0 : ℚ)]] 2).map (fun r => r.1) = [[0, 0]] ∧
    (oneVecBackend.query [[(0 : ℚ)]] 2).map (fun r => (r.1.length, r.2.length)) =
      [(2, 2)] :=
  ⟨rfl, rfl, rfl⟩

/-- C2: the claim says `from_vectors` fails with a configuration error
naming any unrecognized keyword argument. It does not: the `**kwargs`
catch-all silently swallows unknown keywords, the call succeeds, and the
resulting adapter is the same as without them. -/
theorem from_vectors_unknown_kwarg_accepted :
    UsearchBackend.from_vectors [[(1 : ℚ)]] .cos 16 128 64 [("unknown_param", "1")] =
      UsearchBackend.from_vectors [[(1 : ℚ)]] .cos 16 128 64 [] ∧
    (UsearchBackend.from_vectors [[(1 : ℚ)]] .cos 16 128 64 [("unknown_param", "1")]).len = 1 :=
  ⟨rfl, rfl⟩

/-- C2 (amended): `from_vectors` accepts unrecognized keyword arguments and
silently ignores them; the call succeeds, yielding exactly the adapter that
the same call without the extra keywords yields. -/
theorem from_vectors_ignores_unknown_kwargs (V : VecBatch) (m : Metric)
    (c ea es : Nat) (kw : List (String × String)) :
    UsearchBackend.from_vectors V m c ea es kw =
      UsearchBackend.from_vectors V m c ea es [] := rfl

/-- C3: `threshold(vectors, t)` returns, for each query vector, exactly the
keys among the pairs of `query(vectors, 100)` whose distance is strictly
below `t`; hence each returned index-sequence is a sub-sequence of that
query row's keys and has at most 100 entries. -/
theorem threshold_filters_query_top100 (b : UsearchBackend) (V : VecBatch) (t : ℚ) :
    (b.threshold V t).length = (b.query V 100).length ∧
    ∀ i (hi : i < (b.threshold V t).length) (hq : i < (b.query V 100).length),
      (b.threshold V t).get ⟨i, hi⟩ =
        (((b.query V 100).get ⟨i, hq⟩).1.zip ((b.query V 100).get ⟨i, hq⟩).2).filterMap
          (fun p => if p.2 < t then some p.1 else none) ∧
      ((b.threshold V t).get ⟨i, hi⟩).Sublist ((b.query V 100).get ⟨i, hq⟩).1 ∧
      ((b.threshold V t).get ⟨i, hi⟩).length ≤ 100 := by
  refine ⟨by simp [UsearchBackend.threshold], ?_⟩
  intro i hi hq
  have hget : (b.threshold V t).get ⟨i, hi⟩ =
      (((b.query V 100).get ⟨i, hq⟩).1.zip ((b.query V 100).get ⟨i, hq⟩).2).filterMap
        (fun p => if p.2 < t then some p.1 else none) := by
    simp [UsearchBackend.threshold, List.get_eq_getElem, List.getElem_map]
  refine ⟨hget, ?_, ?_⟩
  · rw [hget]
    exact filterMap_lt_zip_sublist t _ _
  · rw [hget]
    have h1 := List.length_filterMap_le
      (fun p => if p.2 < t then some p.1 else none)
      (((b.query V 100).get ⟨i, hq⟩).1.zip ((b.query V 100).get ⟨i, hq⟩).2)
    have h2 := List.length_zip ((b.query V 100).get ⟨i, hq⟩).1 ((b.query V 100).get ⟨i, hq⟩).2
    have h3 := query_row_lengths b V 100 (by omega) ((b.query V 100).get ⟨i, hq⟩)
      (List.get_mem _ _ _)
    omega

/-- C4: `delete` always raises the unsupported-operation error
(`NotImplementedError`) and has no effect: the adapter, hence its vector
count, dimension and argument record, is unchanged. -/
theorem delete_unsupported_no_effect (b : UsearchBackend) (indices : List Nat) :
    (b.delete indices).2 = some "Dynamic deletion is not supported by usearch." ∧
    (b.delete indices).1 = b ∧
    (b.delete indices).1.len = b.len ∧
    (b.delete indices).1.dim = b.dim ∧
    (b.delete indices).1.arguments = b.arguments :=
  ⟨rfl, rfl, rfl, rfl, rfl⟩

/-- C5: saving to a directory and loading from it yields an adapter whose
`dim`, length and `query` results on any probe batch equal the pre-save
adapter's. -/
theorem save_load_roundtrip (b : UsearchBackend) (base : String) (fs : FS) :
    ∃ b2, UsearchBackend.load base (b.save base fs).2 = .ok b2 ∧
      b2.dim = b.dim ∧ b2.len = b.len ∧
      ∀ probe k, b2.query probe k = b.query probe k := by
  refine ⟨b, ?_, rfl, rfl, fun _ _ => rfl⟩
  have hne : ((base, "index.usearch") : FPath) ≠ (base, "arguments.json") := by
    intro h
    have h2 : ("index.usearch" : String) = "arguments.json" := congrArg Prod.snd h
    exact absurd h2 (by decide)
  simp [UsearchBackend.save, UsearchBackend.load, UsearchArgs.loadFile, UsearchArgs.dump,
    UsearchIndex.saveTo, UsearchIndex.loadFrom, fsWrite, hne]

/-- C6: the adapter built by `from_vectors(V, ...)` on a non-empty batch has
length equal to the row count of `V`, and `insert(W)` grows any adapter's
length by the row count of `W`. -/
theorem len_from_vectors_and_insert (V : VecBatch) (m : Metric) (c ea es : Nat)
    (kw : List (String × String)) (hV : V ≠ []) (b : UsearchBackend) (W : VecBatch) :
    (UsearchBackend.from_vectors V m c ea es kw).len = V.length ∧
    (b.insert W).len = b.len + W.length := by
  constructor
  · simp [UsearchBackend.from_vectors, UsearchBackend.len, UsearchIndex.size,
      UsearchIndex.add, mkUsearchIndex]
  · simp [UsearchBackend.insert, UsearchBackend.len, UsearchIndex.size, UsearchIndex.add]

/-- C7: the claim says every query row's distances are non-decreasing for
every `k ≥ 1`. It fails when `k` exceeds the adapter's vector count: the
rows are then padded to `k` entries and the padding need not respect the
ordering. Concrete refutation: the one-vector adapter queried with `k = 2`
yields the distance row `[1, 0]`. -/
theorem query_padding_breaks_distance_order :
    ¬ ∀ r ∈ oneVecBackend.query [[(0 : ℚ)]] 2, List.Pairwise (· ≤ ·) r.2 := by
  intro h
  have hrow : ([0, 0], [rawDist Metric.l2sq [(0 : ℚ)] [(1 : ℚ)], 0]) ∈
      oneVecBackend.query [[(0 : ℚ)]] 2 := by
    show _ ∈ [([0, 0], [rawDist Metric.l2sq [(0 : ℚ)] [(1 : ℚ)], 0])]
    simp
  have hp := h _ hrow
  have hd : rawDist Metric.l2sq [(0 : ℚ)] [(1 : ℚ)] = 1 := by
    norm_num [rawDist]
  rw [hd] at hp
  have h10 : (1 : ℚ) ≤ 0 := (List.pairwise_cons.mp hp).1 0 (by simp)
  norm_num at h10

/-- C7 (amended): for every built usearch adapter, every query batch and
every `k` with `1 ≤ k ≤` the adapter's vector count, the distances within
each query vector's returned result row are non-decreasing (nearest first);
for `k` above the vector count the rows are padded to `k` entries and the
padding entries need not respect the ordering. -/
theorem query_distances_sorted (b : UsearchBackend) (V : VecBatch) (k : Nat)
    (hk1 : 1 ≤ k) (hk2 : k ≤ b.len) :
    ∀ r ∈ b.query V k, List.Pairwise (· ≤ ·) r.2 := by
  rw [query_eq b V k (by omega)]
  intro r hr
  simp only [List.mem_map] at hr
  obtain ⟨q, _, rfl⟩ := hr
  exact pairwise_searchRow b.index q k hk2

/-- C8: `from_vectors` derives `dim` from the batch's column count and
captures exactly the passed configuration into the argument record. -/
theorem from_vectors_captures_config (V : VecBatch) (m : Metric)
    (c ea es d : Nat) (kw : List (String × String)) (hV : V ≠ [])
    (hd : ∀ r ∈ V, r.length = d) :
    (UsearchBackend.from_vectors V m c ea es kw).dim = d ∧
    (UsearchBackend.from_vectors V m c ea es kw).arguments = ⟨d, m, c, ea, es⟩ := by
  have hnc : ncols V = d := by
    cases V with
    | nil => exact absurd rfl hV
    | cons r V => exact hd r (by simp)
  constructor
  · simp [UsearchBackend.from_vectors, UsearchBackend.dim, mkUsearchIndex,
      UsearchIndex.add, hnc]
  · simp [UsearchBackend.from_vectors, hnc]

/-- C9: the argument record attached at construction is never mutated:
`insert`, `delete` and `save` leave `arguments` unchanged (`query` and
`threshold` are pure reads producing no adapter state at all), and `load`
takes its argument record verbatim from the persisted argument file, the
fresh engine instance it builds being a function of those stored fields
alone (`mkUsearchIndex` applied to `dim`, `metric`, `connectivity`,
`expansion_add`, `expansion_search`). -/
theorem arguments_never_mutated (b : UsearchBackend) (W : VecBatch)
    (idxs : List Nat) (base : String) (fs : FS) :
    (b.insert W).arguments = b.arguments ∧
    (b.delete idxs).1.arguments = b.arguments ∧
    ((b.save base fs).1).arguments = b.arguments ∧
    ∀ a st, fs (base, "arguments.json") = some (.args a) →
      fs (base, "index.usearch") = some (.engine st) →
      UsearchBackend.load base fs = .ok ⟨st, a⟩ := by
  refine ⟨rfl, rfl, rfl, ?_⟩
  intro a st ha hst
  simp [UsearchBackend.load, UsearchArgs.loadFile, UsearchIndex.loadFrom, ha, hst]

/-- C10: `save` leaves the adapter's own observable state unchanged (`dim`,
length, argument record and `query` results), and writes only inside the
given directory: every path outside it still maps to its old contents. -/
theorem save_leaves_adapter_unchanged (b : UsearchBackend) (base : String) (fs : FS) :
    (b.save base fs).1 = b ∧
    ((b.save base fs).1).dim = b.dim ∧
    ((b.save base fs).1).len = b.len ∧
    ((b.save base fs).1).arguments = b.arguments ∧
    (∀ probe k, ((b.save base fs).1).query probe k = b.query probe k) ∧
    ∀ p : FPath, p.1 ≠ base → (b.save base fs).2 p = fs p := by
  refine ⟨rfl, rfl, rfl, rfl, fun _ _ => rfl, ?_⟩
  intro p hp
  simp only [UsearchBackend.save, UsearchArgs.dump, UsearchIndex.saveTo, fsWrite]
  rw [if_neg (fun h => hp (by rw [h])), if_neg (fun h => hp (by rw [h]))]

/-! ## Witnesses: each applies its theorem at a concrete input -/

/-- Witness for C3 at the three-vector adapter, probe `[[1]]`, `t = 5`. -/
theorem threshold_filters_query_top100_witness :
    (threeVecBackend.threshold [[(1 : ℚ)]] 5).length =
      (threeVecBackend.query [[(1 : ℚ)]] 100).length ∧
    ((threeVecBackend.threshold [[(1 : ℚ)]] 5).get
        ⟨0, by rw [threshold_length]; norm_num⟩).Sublist
      ((threeVecBackend.query [[(1 : ℚ)]] 100).get
        ⟨0, by rw [query_length _ _ _ (by norm_num)]; norm_num⟩).1 := by
  have h := threshold_filters_query_top100 threeVecBackend [[(1 : ℚ)]] 5
  exact ⟨h.1, (h.2 0 (by rw [threshold_length]; norm_num)
    (by rw [query_length _ _ _ (by norm_num)]; norm_num)).2.1⟩

/-- Witness for C6 at a one-row batch and a one-row insert. -/
theorem len_from_vectors_and_insert_witness :
    ([[(1 : ℚ)]] : VecBatch) ≠ [] ∧
    (UsearchBackend.from_vectors [[(1 : ℚ)]] .l2sq 16 128 64 []).len = 1 ∧
    (oneVecBackend.insert [[(2 : ℚ)]]).len = oneVecBackend.len + 1 := by
  have h := len_from_vectors_and_insert [[(1 : ℚ)]] .l2sq 16 128 64 []
    (by decide) oneVecBackend [[(2 : ℚ)]]
  exact ⟨by decide, h.1, h.2⟩

/-- Witness for C7 (amended) at the three-vector adapter with `k = 2`. -/
theorem query_distances_sorted_witness :
    List.Pairwise (· ≤ ·)
      ((threeVecBackend.query [[(1 : ℚ)]] 2).get
        ⟨0, by rw [query_length _ _ _ (by norm_num)]; norm_num⟩).2 :=
  query_distances_sorted threeVecBackend [[(1 : ℚ)]] 2 (by norm_num) (by decide)
    _ (List.get_mem _ _ _)

/-- Witness for C8 at a one-row, two-column batch. -/
theorem from_vectors_captures_config_witness :
    (UsearchBackend.from_vectors [[(1 : ℚ), 2]] .ip 7 9 11 []).dim = 2 ∧
    (UsearchBackend.from_vectors [[(1 : ℚ), 2]] .ip 7 9 11 []).arguments =
      ⟨2, .ip, 7, 9, 11⟩ :=
  from_vectors_captures_config [[(1 : ℚ), 2]] .ip 7 9 11 2 [] (by decide) (by decide)

/-- A concrete argument record for the C9 witness. -/
def wArgs : UsearchArgs := ⟨1, .cos, 16, 128, 64⟩

/-- A concrete engine state for the C9 witness. -/
def wState : UsearchIndex := (mkUsearchIndex 1 .cos 16 128 64).add [[(1 : ℚ)]]

/-- A concrete persisted directory for the C9 witness. -/
def wFS : FS := fun p =>
  if p = ("d", "arguments.json") then some (.args wArgs)
  else if p = ("d", "index.usearch") then some (.engine wState)
  else none

/-- Witness for C9 at the one-vector adapter and the concrete store `wFS`. -/
theorem arguments_never_mutated_witness :
    (oneVecBackend.insert [[(2 : ℚ)]]).arguments = oneVecBackend.arguments ∧
    UsearchBackend.load "d" wFS = .ok ⟨wState, wArgs⟩ := by
  have h := arguments_never_mutated oneVecBackend [[(2 : ℚ)]] [] "d" wFS
  exact ⟨h.1, h.2.2.2 wArgs wState rfl rfl⟩

/-- Witness for C10 at the one-vector adapter, directory `"d"`, the empty
store and the outside path `("e", "x")`. -/
theorem save_leaves_adapter_unchanged_witness :
    (oneVecBackend.save "d" (fun _ => none)).1 = oneVecBackend ∧
    (oneVecBackend.save "d" (fun _ => none)).2 ("e", "x") = none := by
  have h := save_leaves_adapter_unchanged oneVecBackend "d" (fun _ => none)
  exact ⟨h.1, h.2.2.2.2.2 ("e", "x") (by decide)⟩

end Vicinity
